/-
  Verification of the cart/checkout core of the shopping backend
  (src/api/services.py, src/api/db/models.py, src/api/schemas.py,
  src/api/routers/cart.py, src/api/routers/orders.py).

  Shallow embedding: the persistent store is a record of entity tables
  (lists); each service function is a pure function from the persisted
  state to (new persisted state, outcome).  A service that raises before
  its `db.commit()` leaves the persisted state unchanged (the session is
  closed without commit, rolling back any flushed-but-uncommitted work);
  a service returns a new state only at its single commit point.
  Monetary `Decimal` values (SQL `Numeric(10,2)`) are rationals;
  `Decimal.quantize(Decimal("0.01"))` with the default `ROUND_HALF_EVEN`
  context is `money` below.
-/
import Mathlib

namespace Shop

/-- Round a rational to the nearest integer, ties to even
(Python `decimal` default rounding `ROUND_HALF_EVEN`). -/
def roundHalfEven (q : ℚ) : ℤ :=
  let f : ℤ := ⌊q⌋
  let r : ℚ := q - (f : ℚ)
  if r < 1/2 then f
  else if 1/2 < r then f + 1
  else if f % 2 = 0 then f else f + 1

/-- `_money` in services.py: `value.quantize(Decimal("0.01"))` —
normalize to 2 decimal places. -/
def money (v : ℚ) : ℚ := (roundHalfEven (v * 100) : ℚ) / 100

/-- products table (models.py `Product`); timestamps and description
omitted (never read by the cart/checkout core). -/
structure Product where
  id : Nat
  price : ℚ
  currency : String
  is_active : Bool
deriving DecidableEq, Repr

/-- carts table (models.py `Cart`). -/
structure Cart where
  id : Nat
  user_id : Nat
  status : String
deriving DecidableEq, Repr

/-- cart_items table (models.py `CartItem`). -/
structure CartItem where
  id : Nat
  cart_id : Nat
  product_id : Nat
  quantity : ℤ
  unit_price : ℚ
deriving DecidableEq, Repr

/-- orders table (models.py `Order`). -/
structure Order where
  id : Nat
  user_id : Nat
  status : String
  total_amount : ℚ
  currency : String
deriving DecidableEq, Repr

/-- order_items table (models.py `OrderItem`). -/
structure OrderItem where
  id : Nat
  order_id : Nat
  product_id : Nat
  quantity : ℤ
  unit_price : ℚ
  line_total : ℚ
deriving DecidableEq, Repr

/-- The persisted store: one list per table, plus the id sequences
(BigInteger primary keys assigned at flush time). -/
structure DB where
  products : List Product
  carts : List Cart
  cart_items : List CartItem
  orders : List Order
  order_items : List OrderItem
  next_cart_id : Nat
  next_cart_item_id : Nat
  next_order_id : Nat
  next_order_item_id : Nat
deriving DecidableEq, Repr

/-- Error taxonomy of the core (spec section 7).  `NotFound` carries the
HTTP detail string so that distinguishability of outcomes is observable.
`InvalidQuantity` is the rejection produced by the request schema
(`CartItemUpsertRequest.quantity: conint(gt=0)`, schemas.py).
`StorageConflict` models `db.commit()` raising.  `InternalError` models
an unhandled exception (e.g. `scalar_one` on an empty result); it is
proved unreachable where it appears. -/
inductive ApiError where
  | NotFound (detail : String)
  | InvalidQuantity
  | EmptyCart
  | StorageConflict
  | InternalError
deriving DecidableEq, Repr

/-- Primary-key lookup in the products table (`db.get(Product, id)`). -/
def productOf (db : DB) (product_id : Nat) : Option Product :=
  db.products.find? (fun p => p.id == product_id)

/-- The rows of `cart.items` (relationship on `CartItem.cart_id`). -/
def itemsOfCart (db : DB) (cart_id : Nat) : List CartItem :=
  db.cart_items.filter (fun ci => ci.cart_id == cart_id)

/-- The rows of `order.items` (relationship on `OrderItem.order_id`). -/
def itemsOfOrder (db : DB) (order_id : Nat) : List OrderItem :=
  db.order_items.filter (fun oi => oi.order_id == order_id)

/-- `select(Cart).where(Cart.user_id == user_id, Cart.status == "active")`. -/
def activeCart (db : DB) (user_id : Nat) : Option Cart :=
  db.carts.find? (fun c => c.user_id == user_id && c.status == "active")

/-- Resolve each cart item's `product` relationship (`joinedload`);
`none` when a `product_id` does not resolve, which the `RESTRICT`
foreign key of cart_items rules out in well-formed states. -/
def resolveItems (db : DB) : List CartItem → Option (List (CartItem × Product))
  | [] => some []
  | ci :: rest =>
      match productOf db ci.product_id, resolveItems db rest with
      | some p, some tail => some ((ci, p) :: tail)
      | _, _ => none

/-- services.py `get_product`: 404 "Product not found" when the row is
absent or inactive. -/
def get_product (db : DB) (product_id : Nat) : Except ApiError Product :=
  match productOf db product_id with
  | none => .error (.NotFound "Product not found")
  | some product =>
      if product.is_active then .ok product
      else .error (.NotFound "Product not found")

/-- services.py `_get_or_create_active_cart`: look up the active cart,
else insert a fresh one (flushed, id assigned).  Returns the session
state and the cart; nothing is committed here. -/
def _get_or_create_active_cart (db : DB) (user_id : Nat) : DB × Cart :=
  match activeCart db user_id with
  | some cart => (db, cart)
  | none =>
      let cart : Cart := { id := db.next_cart_id, user_id := user_id, status := "active" }
      ({ db with carts := db.carts ++ [cart], next_cart_id := db.next_cart_id + 1 }, cart)

/-- services.py `get_cart`: `_get_or_create_active_cart`, then re-select
the cart row by id with items loaded (`scalar_one`; the fallback branch
is unreachable since the cart is always in the table — see
`get_cart_reselect_some`). -/
def get_cart (db : DB) (user_id : Nat) : DB × Cart :=
  let s := _get_or_create_active_cart db user_id
  match s.1.carts.find? (fun c => c.id == s.2.id) with
  | some c => (s.1, c)
  | none => (s.1, s.2)

/-- services.py `upsert_cart_item`: validate the product, get/create the
cart, insert or overwrite the (cart, product) row, commit, return the
refreshed cart.  First component of the result is the persisted state
(the input state on the error path, which raises before commit). -/
def upsert_cart_item (db : DB) (user_id product_id : Nat) (quantity : ℤ) :
    DB × Except ApiError Cart :=
  match get_product db product_id with
  | .error e => (db, .error e)
  | .ok product =>
      let s := _get_or_create_active_cart db user_id
      let cart := s.2
      let db2 :=
        match s.1.cart_items.find?
            (fun ci => ci.cart_id == cart.id && ci.product_id == product_id) with
        | none =>
            let item : CartItem :=
              { id := s.1.next_cart_item_id, cart_id := cart.id, product_id := product_id,
                quantity := quantity, unit_price := product.price }
            { s.1 with cart_items := s.1.cart_items ++ [item],
                       next_cart_item_id := s.1.next_cart_item_id + 1 }
        | some existing =>
            { s.1 with cart_items := s.1.cart_items.map (fun ci =>
                if ci.id == existing.id then
                  { ci with quantity := quantity, unit_price := product.price }
                else ci) }
      -- db.commit(); then `return get_cart(db, user_id)` (read-only here:
      -- the active cart exists, so no further row is created)
      (db2, .ok (get_cart db2 user_id).2)

/-- routers/cart.py `cart_upsert_item` endpoint: the request body is a
`CartItemUpsertRequest` whose `quantity` field is `conint(gt=0)`
(schemas.py), so a non-positive quantity is rejected before the service
runs and the store is untouched. -/
def cart_upsert_item (db : DB) (user_id product_id : Nat) (quantity : ℤ) :
    DB × Except ApiError Cart :=
  if quantity ≤ 0 then (db, .error .InvalidQuantity)
  else upsert_cart_item db user_id product_id quantity

/-- services.py `remove_cart_item`: 404 when the item id is absent from
the user's active cart (raised before commit), else delete and commit. -/
def remove_cart_item (db : DB) (user_id cart_item_id : Nat) :
    DB × Except ApiError Cart :=
  let s := _get_or_create_active_cart db user_id
  match s.1.cart_items.find?
      (fun ci => ci.id == cart_item_id && ci.cart_id == s.2.id) with
  | none => (db, .error (.NotFound "Cart item not found"))
  | some item =>
      let db2 := { s.1 with cart_items := s.1.cart_items.filter (fun ci => ci.id != item.id) }
      (db2, .ok (get_cart db2 user_id).2)

/-- services.py `clear_cart`: bulk-delete the active cart's items and
commit (this path always commits, so a lazily created cart persists). -/
def clear_cart (db : DB) (user_id : Nat) : DB × Except ApiError Cart :=
  let s := _get_or_create_active_cart db user_id
  let db2 := { s.1 with cart_items := s.1.cart_items.filter (fun ci => ci.cart_id != s.2.id) }
  (db2, .ok (get_cart db2 user_id).2)

/-- The `for ci in cart.items` loop of services.py `checkout`: for each
cart item (with its product row loaded) build an `OrderItem` priced from
`ci.product.price` — the live product row, not the cart snapshot — with
`line_total = _money(quantity * unit_price)`, and accumulate the total. -/
def checkout_loop (order_id : Nat) (d : DB) (total : ℚ) :
    List (CartItem × Product) → DB × ℚ
  | [] => (d, total)
  | (ci, p) :: rest =>
      let unit_price := p.price
      let line_total := money ((ci.quantity : ℚ) * unit_price)
      let oi : OrderItem :=
        { id := d.next_order_item_id, order_id := order_id, product_id := ci.product_id,
          quantity := ci.quantity, unit_price := unit_price, line_total := line_total }
      checkout_loop order_id
        { d with order_items := d.order_items ++ [oi],
                 next_order_item_id := d.next_order_item_id + 1 }
        (total + line_total) rest

/-- services.py `checkout`: load the cart, reject an empty cart, create
the pending order, convert every cart item, set the rounded total,
delete the cart's items, and commit everything in one transaction.
`commitOk = false` models the store reporting a conflict at
`db.commit()`: the transaction is rolled back and the persisted state is
the input state.  Both error exits return the input state because the
only commit is the final one. -/
def checkout (db : DB) (user_id : Nat) (commitOk : Bool) :
    DB × Except ApiError Order :=
  let s := get_cart db user_id
  let cart := s.2
  let items := itemsOfCart s.1 cart.id
  if items.isEmpty then (db, .error .EmptyCart)
  else
    match resolveItems s.1 items with
    | none => (db, .error .InternalError)
    | some loaded =>
        let currency := ((loaded.head?.map (fun x => x.2.currency)).getD "USD")
        let order0 : Order :=
          { id := s.1.next_order_id, user_id := user_id, status := "pending",
            total_amount := money 0, currency := currency }
        let db2 := { s.1 with orders := s.1.orders ++ [order0],
                              next_order_id := s.1.next_order_id + 1 }
        let r := checkout_loop order0.id db2 0 loaded
        let db4 := { r.1 with orders := r.1.orders.map (fun o : Order =>
          if o.id == order0.id then { o with total_amount := money r.2 } else o) }
        let db5 := { db4 with cart_items := db4.cart_items.filter (fun ci => ci.cart_id != cart.id) }
        if commitOk then
          match db5.orders.find? (fun o => o.id == order0.id && o.user_id == user_id) with
          | some o => (db5, .ok o)
          | none => (db5, .error .InternalError)
        else (db, .error .StorageConflict)

/-- services.py `get_order`: select by both owner and id; a foreign or
nonexistent id is the same 404.  Read-only. -/
def get_order (db : DB) (user_id order_id : Nat) : DB × Except ApiError Order :=
  match db.orders.find? (fun o => o.user_id == user_id && o.id == order_id) with
  | none => (db, .error (.NotFound "Order not found"))
  | some o => (db, .ok o)

/-- Catalog management (out of scope of the core, spec section 3:
products are "created/updated externally"): update a product's price. -/
def set_product_price (db : DB) (product_id : Nat) (p : ℚ) : DB :=
  { db with products := db.products.map (fun pr =>
      if pr.id == product_id then { pr with price := p } else pr) }

/-- One inbound request against the core's service interface. -/
inductive Op where
  | opGetCart (user_id : Nat)
  | opUpsert (user_id product_id : Nat) (quantity : ℤ)
  | opRemove (user_id cart_item_id : Nat)
  | opClear (user_id : Nat)
  | opCheckout (user_id : Nat) (commitOk : Bool)
  | opGetOrder (user_id order_id : Nat)
deriving DecidableEq, Repr

/-- Persisted state after one request.  `get_cart` and `get_order` never
commit (the session dependency only closes the session), so they leave
the store unchanged. -/
def applyOp (db : DB) : Op → DB
  | .opGetCart _ => db
  | .opUpsert u p q => (cart_upsert_item db u p q).1
  | .opRemove u i => (remove_cart_item db u i).1
  | .opClear u => (clear_cart db u).1
  | .opCheckout u ck => (checkout db u ck).1
  | .opGetOrder _ _ => db

/-- States reachable from `db0` by a sequence of core requests. -/
inductive Reachable : DB → DB → Prop
  | refl (db : DB) : Reachable db db
  | step (db1 db2 : DB) (op : Op) : Reachable db1 db2 → Reachable db1 (applyOp db2 op)

/-- The active-cart uniqueness invariant (models.py
`UniqueConstraint("user_id", "status")` restricted to status "active"). -/
def activeCartUnique (db : DB) : Prop :=
  ∀ c1 ∈ db.carts, ∀ c2 ∈ db.carts,
    c1.user_id = c2.user_id → c1.status = "active" → c2.status = "active" → c1 = c2

instance (db : DB) : Decidable (activeCartUnique db) := by
  unfold activeCartUnique; infer_instance

/-- Storage constraints of the cart side (models.py): primary keys are
unique and below the id sequence (`BigInteger` PKs assigned by flush),
and `UniqueConstraint("cart_id", "product_id")` on cart_items. -/
def CartWf (db : DB) : Prop :=
  (db.carts.map Cart.id).Nodup ∧
  (∀ c ∈ db.carts, c.id < db.next_cart_id) ∧
  (db.cart_items.map CartItem.id).Nodup ∧
  (∀ ci ∈ db.cart_items, ci.id < db.next_cart_item_id) ∧
  (db.cart_items.map (fun ci => (ci.cart_id, ci.product_id))).Nodup

instance (db : DB) : Decidable (CartWf db) := by
  unfold CartWf; infer_instance

/-- Full storage constraints (models.py): `CartWf` plus order primary
keys and the foreign keys of cart_items (`cart_id → carts.id`,
`product_id → products.id`, both non-nullable). -/
def StoreWf (db : DB) : Prop :=
  CartWf db ∧
  (db.orders.map Order.id).Nodup ∧
  (∀ o ∈ db.orders, o.id < db.next_order_id) ∧
  (∀ oi ∈ db.order_items, oi.order_id < db.next_order_id) ∧
  (∀ ci ∈ db.cart_items, ∃ c ∈ db.carts, c.id = ci.cart_id) ∧
  (∀ ci ∈ db.cart_items, ∃ p ∈ db.products, p.id = ci.product_id)

instance (db : DB) : Decidable (StoreWf db) := by
  unfold StoreWf; infer_instance

/-- The order items generated by `checkout_loop` for a list of loaded
cart items, starting at a given id-sequence value. -/
def gen_order_items (order_id : Nat) (next : Nat) :
    List (CartItem × Product) → List OrderItem
  | [] => []
  | (ci, p) :: rest =>
      { id := next, order_id := order_id, product_id := ci.product_id,
        quantity := ci.quantity, unit_price := p.price,
        line_total := money ((ci.quantity : ℚ) * p.price) } ::
      gen_order_items order_id (next + 1) rest

/-- Sum of the per-line totals of a list of loaded cart items. -/
def sumTotals (l : List (CartItem × Product)) : ℚ :=
  (l.map (fun pr => money ((pr.1.quantity : ℚ) * pr.2.price))).sum

/-- `checkout_loop` unfolded: it appends exactly the generated order
items, advances the id sequence, and accumulates the line totals;
nothing else in the store is touched. -/
theorem checkout_loop_spec (order_id : Nat) (l : List (CartItem × Product))
    (d : DB) (t : ℚ) :
    checkout_loop order_id d t l =
      ({ d with
          order_items := d.order_items ++ gen_order_items order_id d.next_order_item_id l,
          next_order_item_id := d.next_order_item_id + l.length }, t + sumTotals l) := by
  induction l generalizing d t with
  | nil => simp [checkout_loop, gen_order_items, sumTotals]
  | cons hd tl ih =>
      obtain ⟨ci, p⟩ := hd
      rw [checkout_loop, ih]
      simp [gen_order_items, sumTotals, List.append_assoc]
      constructor
      · omega
      · ring

theorem gen_order_items_length (order_id next : Nat) (l : List (CartItem × Product)) :
    (gen_order_items order_id next l).length = l.length := by
  induction l generalizing next with
  | nil => rfl
  | cons hd tl ih => obtain ⟨ci, p⟩ := hd; simp [gen_order_items, ih]

theorem gen_order_items_mem (order_id next : Nat) (l : List (CartItem × Product))
    (oi : OrderItem) (h : oi ∈ gen_order_items order_id next l) :
    oi.order_id = order_id ∧
    oi.line_total = money ((oi.quantity : ℚ) * oi.unit_price) ∧
    ∃ pr ∈ l, oi.product_id = pr.1.product_id ∧ oi.quantity = pr.1.quantity ∧
      oi.unit_price = pr.2.price := by
  induction l generalizing next with
  | nil => simp [gen_order_items] at h
  | cons hd tl ih =>
      obtain ⟨ci, p⟩ := hd
      simp only [gen_order_items, List.mem_cons] at h
      rcases h with h | h
      · subst h
        refine ⟨rfl, rfl, ⟨ci, p⟩, by simp, rfl, rfl, rfl⟩
      · obtain ⟨h1, h2, pr, hpr, h3⟩ := ih (next + 1) h
        exact ⟨h1, h2, pr, List.mem_cons_of_mem _ hpr, h3⟩

theorem gen_order_items_fields (order_id next : Nat) (l : List (CartItem × Product)) :
    (gen_order_items order_id next l).map (fun oi => (oi.product_id, oi.quantity, oi.unit_price)) =
      l.map (fun pr => (pr.1.product_id, pr.1.quantity, pr.2.price)) := by
  induction l generalizing next with
  | nil => rfl
  | cons hd tl ih => obtain ⟨ci, p⟩ := hd; simp [gen_order_items, ih]

theorem gen_order_items_line_totals (order_id next : Nat) (l : List (CartItem × Product)) :
    (gen_order_items order_id next l).map OrderItem.line_total =
      l.map (fun pr => money ((pr.1.quantity : ℚ) * pr.2.price)) := by
  induction l generalizing next with
  | nil => rfl
  | cons hd tl ih => obtain ⟨ci, p⟩ := hd; simp [gen_order_items, ih]

theorem pairPred_eq (cid pid : Nat) :
    (fun ci : CartItem => ci.cart_id == cid && ci.product_id == pid) =
    (fun ci : CartItem => (ci.cart_id, ci.product_id) == (cid, pid)) := by
  funext ci
  cases h1 : (ci.cart_id == cid) <;> cases h2 : (ci.product_id == pid) <;>
    simp_all [Prod.ext_iff]

theorem find?_key_unique {α β : Type} [BEq β] [LawfulBEq β] (f : α → β) (l : List α)
    (k : β) (x : α) (hnd : (l.map f).Nodup) (hx : x ∈ l) (hk : f x = k) :
    l.find? (fun y => f y == k) = some x := by
  induction l with
  | nil => simp at hx
  | cons a tl ih =>
      simp only [List.map_cons, List.nodup_cons] at hnd
      rcases List.mem_cons.mp hx with rfl | hx'
      · exact List.find?_cons_of_pos _ (by simp [hk])
      · have hne : ¬ ((fun y => f y == k) a) = true := by
          simp only [beq_iff_eq]
          intro hak
          apply hnd.1
          rw [hak, ← hk]
          exact List.mem_map_of_mem f hx'
        rw [List.find?_cons_of_neg (p := fun y => f y == k) _ hne, ih hnd.2 hx']

theorem filter_key_unique {α β : Type} [BEq β] [LawfulBEq β] (f : α → β) (l : List α)
    (k : β) (x : α) (hnd : (l.map f).Nodup) (hx : x ∈ l) (hk : f x = k) :
    l.filter (fun y => f y == k) = [x] := by
  induction l with
  | nil => simp at hx
  | cons a tl ih =>
      simp only [List.map_cons, List.nodup_cons] at hnd
      rcases List.mem_cons.mp hx with rfl | hx'
      · rw [List.filter_cons_of_pos (p := fun y => f y == k) (by simp [hk])]
        have htl : tl.filter (fun y => f y == k) = [] := by
          rw [List.filter_eq_nil_iff]
          intro b hb hfb
          apply hnd.1
          have hfb' : f b = k := by simpa using hfb
          rw [hk, ← hfb']
          exact List.mem_map_of_mem f hb
        rw [htl]
      · have hne : ¬ ((fun y => f y == k) a) = true := by
          simp only [beq_iff_eq]
          intro hak
          apply hnd.1
          rw [hak, ← hk]
          exact List.mem_map_of_mem f hx'
        rw [List.filter_cons_of_neg (p := fun y => f y == k) hne, ih hnd.2 hx']

/-- Under the cart-item foreign key on products, loading the cart's
items always resolves, componentwise. -/
theorem resolveItems_of_fk (db : DB) (items : List CartItem)
    (h : ∀ ci ∈ items, ∃ p, productOf db ci.product_id = some p) :
    ∃ loaded, resolveItems db items = some loaded ∧
      loaded.map Prod.fst = items ∧
      (∀ pr ∈ loaded, productOf db pr.1.product_id = some pr.2) := by
  induction items with
  | nil => exact ⟨[], rfl, rfl, by simp⟩
  | cons ci rest ih =>
      obtain ⟨p, hp⟩ := h ci (List.mem_cons_self _ _)
      obtain ⟨tail, htail, hmap, hres⟩ := ih (fun x hx => h x (List.mem_cons_of_mem _ hx))
      refine ⟨(ci, p) :: tail, ?_, ?_, ?_⟩
      · simp [resolveItems, hp, htail]
      · simp [hmap]
      · intro pr hpr
        rcases List.mem_cons.mp hpr with rfl | hpr'
        · exact hp
        · exact hres pr hpr'

/-- The freshly created active cart row. -/
def newCartFor (db : DB) (u : Nat) : Cart :=
  { id := db.next_cart_id, user_id := u, status := "active" }

theorem get_or_create_of_found (db : DB) (u : Nat) (c0 : Cart)
    (hc : activeCart db u = some c0) :
    _get_or_create_active_cart db u = (db, c0) := by
  simp [_get_or_create_active_cart, hc]

theorem get_or_create_of_missing (db : DB) (u : Nat)
    (hc : activeCart db u = none) :
    _get_or_create_active_cart db u =
      ({ db with carts := db.carts ++ [newCartFor db u],
                 next_cart_id := db.next_cart_id + 1 }, newCartFor db u) := by
  simp [_get_or_create_active_cart, hc, newCartFor]

theorem activeCart_mem (db : DB) (u : Nat) (c0 : Cart)
    (hc : activeCart db u = some c0) :
    c0 ∈ db.carts ∧ c0.user_id = u ∧ c0.status = "active" := by
  have hmem := List.mem_of_find?_eq_some hc
  have hp := List.find?_some hc
  simp only [Bool.and_eq_true, beq_iff_eq] at hp
  exact ⟨hmem, hp.1, hp.2⟩

/-- `activeCart` reads only the carts table. -/
theorem activeCart_congr (db db' : DB) (u : Nat) (h : db'.carts = db.carts) :
    activeCart db' u = activeCart db u := by
  simp [activeCart, h]

/-- The cart returned by `_get_or_create_active_cart` is the user's
active cart of the resulting session state. -/
theorem get_or_create_active (db : DB) (u : Nat) :
    activeCart (_get_or_create_active_cart db u).1 u =
      some (_get_or_create_active_cart db u).2 := by
  cases hc : activeCart db u with
  | some c0 => rw [get_or_create_of_found db u c0 hc]; exact hc
  | none =>
      rw [get_or_create_of_missing db u hc]
      simp only [activeCart, List.find?_append]
      rw [activeCart] at hc
      rw [hc]
      simp [newCartFor]

theorem get_cart_of_found (db : DB) (u : Nat) (c0 : Cart)
    (hnd : (db.carts.map Cart.id).Nodup)
    (hc : activeCart db u = some c0) :
    get_cart db u = (db, c0) := by
  have hmem := (activeCart_mem db u c0 hc).1
  have hfind : db.carts.find? (fun c => c.id == c0.id) = some c0 :=
    find?_key_unique Cart.id db.carts c0.id c0 hnd hmem rfl
  simp [get_cart, get_or_create_of_found db u c0 hc, hfind]

theorem get_cart_of_missing (db : DB) (u : Nat)
    (hfresh : ∀ c ∈ db.carts, c.id < db.next_cart_id)
    (hc : activeCart db u = none) :
    get_cart db u =
      ({ db with carts := db.carts ++ [newCartFor db u],
                 next_cart_id := db.next_cart_id + 1 }, newCartFor db u) := by
  have hnone : db.carts.find? (fun c => c.id == db.next_cart_id) = none := by
    rw [List.find?_eq_none]
    intro c hcm
    simp only [beq_iff_eq]
    exact Nat.ne_of_lt (hfresh c hcm)
  simp [get_cart, get_or_create_of_missing db u hc, List.find?_append, hnone, newCartFor]

/-- `itemsOfCart` reads only the cart_items table. -/
theorem itemsOfCart_congr (db db' : DB) (cid : Nat) (h : db'.cart_items = db.cart_items) :
    itemsOfCart db' cid = itemsOfCart db cid := by
  simp [itemsOfCart, h]

/-- A freshly assigned cart id has no items yet (foreign key plus
id-sequence freshness). -/
theorem itemsOfCart_new_empty (db : DB)
    (hfk : ∀ ci ∈ db.cart_items, ∃ c ∈ db.carts, c.id = ci.cart_id)
    (hfresh : ∀ c ∈ db.carts, c.id < db.next_cart_id) :
    itemsOfCart db db.next_cart_id = [] := by
  rw [itemsOfCart, List.filter_eq_nil_iff]
  intro ci hci hbeq
  obtain ⟨c, hcmem, hcid⟩ := hfk ci hci
  have hlt := hfresh c hcmem
  simp only [beq_iff_eq] at hbeq
  omega

/-- `checkout` exits with `EmptyCart` and an untouched store whenever
every active cart of the user is empty — in particular when the user has
no cart yet, since the lazily created cart has no items and its creation
is rolled back with the failed request. -/
theorem checkout_emptycart (db : DB) (u : Nat) (ck : Bool)
    (hnd : (db.carts.map Cart.id).Nodup)
    (hfresh : ∀ c ∈ db.carts, c.id < db.next_cart_id)
    (hfk : ∀ ci ∈ db.cart_items, ∃ c ∈ db.carts, c.id = ci.cart_id)
    (hempty : ∀ c ∈ db.carts, c.user_id = u → c.status = "active" → itemsOfCart db c.id = []) :
    checkout db u ck = (db, .error .EmptyCart) := by
  cases hc : activeCart db u with
  | none =>
      have hgc := get_cart_of_missing db u hfresh hc
      have hempty' : db.cart_items.filter (fun ci => ci.cart_id == db.next_cart_id) = [] := by
        have h := itemsOfCart_new_empty db hfk hfresh
        simpa [itemsOfCart] using h
      simp [checkout, hgc, itemsOfCart, newCartFor, hempty']
  | some c0 =>
      have hgc := get_cart_of_found db u c0 hnd hc
      obtain ⟨hmem, hu, hs⟩ := activeCart_mem db u c0 hc
      have hempty' : db.cart_items.filter (fun ci => ci.cart_id == c0.id) = [] := by
        have h := hempty c0 hmem hu hs
        simpa [itemsOfCart] using h
      simp [checkout, hgc, itemsOfCart, hempty']

/-- The order row a successful checkout persists. -/
def checkoutOrder (db : DB) (u : Nat) (loaded : List (CartItem × Product)) : Order :=
  { id := db.next_order_id, user_id := u, status := "pending",
    total_amount := money (sumTotals loaded),
    currency := (loaded.head?.map (fun x => x.2.currency)).getD "USD" }

/-- The store a successful checkout commits: the new order row, its
generated order items, the cart's items deleted, the id sequences
advanced, everything else untouched. -/
def checkoutState (db : DB) (u cart_id : Nat) (loaded : List (CartItem × Product)) : DB :=
  { db with
      orders := db.orders ++ [checkoutOrder db u loaded],
      order_items := db.order_items ++
        gen_order_items db.next_order_id db.next_order_item_id loaded,
      cart_items := db.cart_items.filter (fun ci => ci.cart_id != cart_id),
      next_order_id := db.next_order_id + 1,
      next_order_item_id := db.next_order_item_id + loaded.length }

theorem orders_map_update (orders : List Order) (nid : Nat) (t : ℚ) (o0 : Order)
    (ho0 : o0.id = nid)
    (hofresh : ∀ o ∈ orders, o.id < nid) :
    (orders ++ [o0]).map
        (fun o : Order => if o.id == nid then { o with total_amount := t } else o) =
      orders ++ [{ o0 with total_amount := t }] := by
  rw [List.map_append]
  congr 1
  · have : ∀ o ∈ orders,
        (fun o : Order => if o.id == nid then { o with total_amount := t } else o) o = id o := by
      intro o ho
      have := hofresh o ho
      simp only [id_eq]
      rw [if_neg]
      simp only [beq_iff_eq]
      omega
    rw [List.map_congr_left this, List.map_id]
  · simp [ho0]

/-- Full characterization of a checkout that reaches the commit point:
with `commitOk` it persists exactly `checkoutState`; without, the
transaction rolls back to the input store. -/
theorem checkout_ok_spec (db : DB) (u : Nat) (c0 : Cart)
    (loaded : List (CartItem × Product)) (ck : Bool)
    (hnd : (db.carts.map Cart.id).Nodup)
    (hc : activeCart db u = some c0)
    (hne : itemsOfCart db c0.id ≠ [])
    (hres : resolveItems db (itemsOfCart db c0.id) = some loaded)
    (hofresh : ∀ o ∈ db.orders, o.id < db.next_order_id) :
    checkout db u ck =
      if ck then (checkoutState db u c0.id loaded, .ok (checkoutOrder db u loaded))
      else (db, .error .StorageConflict) := by
  have hgc := get_cart_of_found db u c0 hnd hc
  have hres' : resolveItems db (db.cart_items.filter (fun ci => ci.cart_id == c0.id)) =
      some loaded := by
    rw [itemsOfCart] at hres; exact hres
  have hneb : (db.cart_items.filter (fun ci => ci.cart_id == c0.id)).isEmpty = false := by
    rw [List.isEmpty_eq_false]
    rw [itemsOfCart] at hne; exact hne
  have hupd := orders_map_update db.orders db.next_order_id (money (0 + sumTotals loaded))
      { id := db.next_order_id, user_id := u, status := "pending",
        total_amount := money 0,
        currency := (loaded.head?.map (fun x => x.2.currency)).getD "USD" }
      rfl hofresh
  have hfind : (db.orders ++
      [{ id := db.next_order_id, user_id := u, status := "pending",
         total_amount := money (0 + sumTotals loaded),
         currency := (loaded.head?.map (fun x => x.2.currency)).getD "USD" : Order}]).find?
        (fun o => o.id == db.next_order_id && o.user_id == u) =
      some { id := db.next_order_id, user_id := u, status := "pending",
             total_amount := money (0 + sumTotals loaded),
             currency := (loaded.head?.map (fun x => x.2.currency)).getD "USD" } := by
    rw [List.find?_append]
    have hnone : db.orders.find? (fun o => o.id == db.next_order_id && o.user_id == u) = none := by
      rw [List.find?_eq_none]
      intro o ho
      have := hofresh o ho
      simp only [Bool.and_eq_true, beq_iff_eq, not_and]
      intro h1
      omega
    rw [hnone]
    simp
  cases ck with
  | false =>
      simp [checkout, hgc, itemsOfCart, hneb, hres', checkout_loop_spec]
  | true =>
      simp only [checkout, hgc, itemsOfCart, hneb, hres', checkout_loop_spec,
        Bool.false_eq_true, if_false, if_true, hupd, hfind]
      simp [checkoutState, checkoutOrder, hupd, hfind, zero_add]

/-- `_get_or_create_active_cart` touches no table but carts and no
sequence but the cart id sequence. -/
theorem get_or_create_fields (db : DB) (u : Nat) :
    (_get_or_create_active_cart db u).1.products = db.products ∧
    (_get_or_create_active_cart db u).1.cart_items = db.cart_items ∧
    (_get_or_create_active_cart db u).1.orders = db.orders ∧
    (_get_or_create_active_cart db u).1.order_items = db.order_items ∧
    (_get_or_create_active_cart db u).1.next_cart_item_id = db.next_cart_item_id ∧
    (_get_or_create_active_cart db u).1.next_order_id = db.next_order_id ∧
    (_get_or_create_active_cart db u).1.next_order_item_id = db.next_order_item_id := by
  cases hc : activeCart db u with
  | some c0 => rw [get_or_create_of_found db u c0 hc]; exact ⟨rfl, rfl, rfl, rfl, rfl, rfl, rfl⟩
  | none => rw [get_or_create_of_missing db u hc]; exact ⟨rfl, rfl, rfl, rfl, rfl, rfl, rfl⟩

theorem get_or_create_cartwf (db : DB) (u : Nat) (hwf : CartWf db) :
    CartWf (_get_or_create_active_cart db u).1 := by
  obtain ⟨hnd, hfresh, hind, hifresh, hpairs⟩ := hwf
  cases hc : activeCart db u with
  | some c0 => rw [get_or_create_of_found db u c0 hc]; exact ⟨hnd, hfresh, hind, hifresh, hpairs⟩
  | none =>
      rw [get_or_create_of_missing db u hc]
      refine ⟨?_, ?_, hind, hifresh, hpairs⟩
      · show ((db.carts ++ [newCartFor db u]).map Cart.id).Nodup
        simp only [List.map_append, List.map_cons, List.map_nil, newCartFor]
        rw [List.nodup_append]
        refine ⟨hnd, List.nodup_singleton _, ?_⟩
        intro a ha hb
        simp only [List.mem_singleton] at hb
        subst hb
        obtain ⟨c, hcm, hcid⟩ := List.mem_map.mp ha
        have := hfresh c hcm
        omega
      · intro c hcm
        have hcm' : c ∈ db.carts ++ [newCartFor db u] := hcm
        show c.id < db.next_cart_id + 1
        rcases List.mem_append.mp hcm' with h | h
        · have := hfresh c h
          omega
        · simp only [List.mem_singleton] at h
          subst h
          show db.next_cart_id < db.next_cart_id + 1
          omega

/-- A field update that changes neither ids nor the (cart, product) pair
leaves every key map of the cart_items table unchanged. -/
theorem map_upd_keys {κ : Type} (l : List CartItem) (exid : Nat) (q : ℤ) (p : ℚ)
    (g : CartItem → κ)
    (hg : ∀ ci : CartItem, g { ci with quantity := q, unit_price := p } = g ci) :
    (l.map (fun ci => if ci.id == exid then { ci with quantity := q, unit_price := p }
        else ci)).map g = l.map g := by
  rw [List.map_map]
  apply List.map_congr_left
  intro a ha
  by_cases h : (a.id == exid) = true
  · simp only [Function.comp_apply, h, if_true, hg]
  · simp only [Function.comp_apply, h, Bool.false_eq_true, if_false]

/-- Computation of `upsert_cart_item` on its insert branch. -/
theorem upsert_run_insert (db dbA db2 : DB) (u pid : Nat) (q : ℤ) (P : Product) (cart : Cart)
    (hP : get_product db pid = .ok P)
    (hsplit : _get_or_create_active_cart db u = (dbA, cart))
    (hnd : (dbA.carts.map Cart.id).Nodup)
    (hactive : activeCart dbA u = some cart)
    (hfind : dbA.cart_items.find?
      (fun ci => ci.cart_id == cart.id && ci.product_id == pid) = none)
    (hdb2 : db2 = { dbA with
        cart_items := dbA.cart_items ++
            [{ id := dbA.next_cart_item_id, cart_id := cart.id, product_id := pid,
               quantity := q, unit_price := P.price }],
        next_cart_item_id := dbA.next_cart_item_id + 1 }) :
    upsert_cart_item db u pid q = (db2, .ok cart) := by
  subst hdb2
  have hgc := get_cart_of_found ({ dbA with
      cart_items := dbA.cart_items ++
          [{ id := dbA.next_cart_item_id, cart_id := cart.id, product_id := pid,
             quantity := q, unit_price := P.price }],
      next_cart_item_id := dbA.next_cart_item_id + 1 } : DB) u cart hnd hactive
  simp only [upsert_cart_item, hP, hsplit, hfind, hgc]

/-- Computation of `upsert_cart_item` on its update branch. -/
theorem upsert_run_update (db dbA db2 : DB) (u pid : Nat) (q : ℤ) (P : Product)
    (cart : Cart) (ex : CartItem)
    (hP : get_product db pid = .ok P)
    (hsplit : _get_or_create_active_cart db u = (dbA, cart))
    (hnd : (dbA.carts.map Cart.id).Nodup)
    (hactive : activeCart dbA u = some cart)
    (hfind : dbA.cart_items.find?
      (fun ci => ci.cart_id == cart.id && ci.product_id == pid) = some ex)
    (hdb2 : db2 = { dbA with
        cart_items := dbA.cart_items.map (fun ci : CartItem =>
            if ci.id == ex.id then { ci with quantity := q, unit_price := P.price }
            else ci) }) :
    upsert_cart_item db u pid q = (db2, .ok cart) := by
  subst hdb2
  have hgc := get_cart_of_found ({ dbA with
      cart_items := dbA.cart_items.map (fun ci : CartItem =>
          if ci.id == ex.id then { ci with quantity := q, unit_price := P.price }
          else ci) } : DB) u cart hnd hactive
  simp only [upsert_cart_item, hP, hsplit, hfind, hgc]

/-- Full characterization of a successful upsert on a well-formed cart
store: the result commits, keeps the store well-formed, leaves products
alone, returns the user's active cart, and leaves exactly one row for
the (cart, product) pair, holding the requested quantity and the
product's current price. -/
theorem upsert_ok_spec (db : DB) (u pid : Nat) (q : ℤ) (P : Product)
    (hwf : CartWf db) (hP : get_product db pid = .ok P) :
    ∃ db' c' item,
      upsert_cart_item db u pid q = (db', .ok c') ∧
      CartWf db' ∧
      db'.products = db.products ∧
      activeCart db' u = some c' ∧
      db'.cart_items.filter (fun ci => ci.cart_id == c'.id && ci.product_id == pid) = [item] ∧
      item.quantity = q ∧ item.unit_price = P.price := by
  rcases hsplit : _get_or_create_active_cart db u with ⟨dbA, cart⟩
  have hactive : activeCart dbA u = some cart := by
    have h := get_or_create_active db u
    rw [hsplit] at h
    exact h
  have hwfA : CartWf dbA := by
    have h := get_or_create_cartwf db u hwf
    rw [hsplit] at h
    exact h
  have hfp : dbA.products = db.products := by
    have h := (get_or_create_fields db u).1
    rw [hsplit] at h
    exact h
  obtain ⟨hndA, hfreshA, hindA, hifreshA, hpairsA⟩ := hwfA
  cases hfind : dbA.cart_items.find?
      (fun ci => ci.cart_id == cart.id && ci.product_id == pid) with
  | none =>
      refine ⟨{ dbA with
          cart_items := dbA.cart_items ++
              [{ id := dbA.next_cart_item_id, cart_id := cart.id, product_id := pid,
                 quantity := q, unit_price := P.price }],
          next_cart_item_id := dbA.next_cart_item_id + 1 }, cart,
        { id := dbA.next_cart_item_id, cart_id := cart.id, product_id := pid,
          quantity := q, unit_price := P.price }, ?_, ?_, ?_, ?_, ?_, rfl, rfl⟩
      · exact upsert_run_insert db dbA _ u pid q P cart hP hsplit hndA hactive hfind rfl
      · refine ⟨hndA, hfreshA, ?_, ?_, ?_⟩
        · show ((dbA.cart_items ++
              [({ id := dbA.next_cart_item_id, cart_id := cart.id, product_id := pid,
                  quantity := q, unit_price := P.price } : CartItem)]).map CartItem.id).Nodup
          simp only [List.map_append, List.map_cons, List.map_nil]
          rw [List.nodup_append]
          refine ⟨hindA, List.nodup_singleton _, ?_⟩
          intro a ha hb
          simp only [List.mem_singleton] at hb
          subst hb
          obtain ⟨ci, hcm, hcid⟩ := List.mem_map.mp ha
          have := hifreshA ci hcm
          show False
          omega
        · intro ci hcm
          have hcm' : ci ∈ dbA.cart_items ++
              [({ id := dbA.next_cart_item_id, cart_id := cart.id, product_id := pid,
                  quantity := q, unit_price := P.price } : CartItem)] := hcm
          show ci.id < dbA.next_cart_item_id + 1
          rcases List.mem_append.mp hcm' with h | h
          · have := hifreshA ci h
            omega
          · simp only [List.mem_singleton] at h
            subst h
            show dbA.next_cart_item_id < dbA.next_cart_item_id + 1
            omega
        · show ((dbA.cart_items ++
              [({ id := dbA.next_cart_item_id, cart_id := cart.id, product_id := pid,
                  quantity := q, unit_price := P.price } : CartItem)]).map
                (fun ci : CartItem => (ci.cart_id, ci.product_id))).Nodup
          simp only [List.map_append, List.map_cons, List.map_nil]
          rw [List.nodup_append]
          refine ⟨hpairsA, List.nodup_singleton _, ?_⟩
          intro a ha hb
          simp only [List.mem_singleton] at hb
          subst hb
          obtain ⟨ci, hcm, hcid⟩ := List.mem_map.mp ha
          have hnone := List.find?_eq_none.mp hfind ci hcm
          simp only [Bool.and_eq_true, beq_iff_eq, not_and] at hnone
          simp only [Prod.mk.injEq] at hcid
          exact hnone hcid.1 hcid.2
      · exact hfp
      · exact hactive
      · show (dbA.cart_items ++
            [({ id := dbA.next_cart_item_id, cart_id := cart.id, product_id := pid,
                quantity := q, unit_price := P.price } : CartItem)]).filter
              (fun ci : CartItem => ci.cart_id == cart.id && ci.product_id == pid) =
          [({ id := dbA.next_cart_item_id, cart_id := cart.id, product_id := pid,
              quantity := q, unit_price := P.price } : CartItem)]
        rw [List.filter_append]
        have hold : dbA.cart_items.filter
            (fun ci => ci.cart_id == cart.id && ci.product_id == pid) = [] := by
          rw [List.filter_eq_nil_iff]
          intro a ha hp
          exact (List.find?_eq_none.mp hfind a ha) hp
        rw [hold]
        simp
  | some ex =>
      have hexp := List.find?_some hfind
      have hexm := List.mem_of_find?_eq_some hfind
      simp only [Bool.and_eq_true, beq_iff_eq] at hexp
      refine ⟨{ dbA with
          cart_items := dbA.cart_items.map (fun ci =>
              if ci.id == ex.id then { ci with quantity := q, unit_price := P.price }
              else ci) }, cart,
        { ex with quantity := q, unit_price := P.price }, ?_, ?_, ?_, ?_, ?_, rfl, rfl⟩
      · exact upsert_run_update db dbA _ u pid q P cart ex hP hsplit hndA hactive hfind rfl
      · refine ⟨hndA, hfreshA, ?_, ?_, ?_⟩
        · show ((dbA.cart_items.map (fun ci : CartItem =>
              if ci.id == ex.id then { ci with quantity := q, unit_price := P.price }
              else ci)).map CartItem.id).Nodup
          rw [map_upd_keys dbA.cart_items ex.id q P.price CartItem.id (fun ci => rfl)]
          exact hindA
        · intro ci hcm
          have hcm' : ci ∈ dbA.cart_items.map (fun x : CartItem =>
              if x.id == ex.id then { x with quantity := q, unit_price := P.price }
              else x) := hcm
          show ci.id < dbA.next_cart_item_id
          obtain ⟨x, hxm, hx⟩ := List.mem_map.mp hcm'
          have hlt := hifreshA x hxm
          by_cases h : (x.id == ex.id) = true
          · rw [if_pos h] at hx
            subst hx
            exact hlt
          · rw [if_neg (by simp_all)] at hx
            subst hx
            exact hlt
        · show ((dbA.cart_items.map (fun ci : CartItem =>
              if ci.id == ex.id then { ci with quantity := q, unit_price := P.price }
              else ci)).map (fun ci : CartItem => (ci.cart_id, ci.product_id))).Nodup
          rw [map_upd_keys dbA.cart_items ex.id q P.price
              (fun ci => (ci.cart_id, ci.product_id)) (fun ci => rfl)]
          exact hpairsA
      · exact hfp
      · exact hactive
      · show (dbA.cart_items.map (fun ci : CartItem =>
            if ci.id == ex.id then { ci with quantity := q, unit_price := P.price }
            else ci)).filter
              (fun ci : CartItem => ci.cart_id == cart.id && ci.product_id == pid) =
          [{ ex with quantity := q, unit_price := P.price }]
        rw [pairPred_eq cart.id pid]
        have hmem2 : { ex with quantity := q, unit_price := P.price } ∈
            dbA.cart_items.map (fun ci =>
              if ci.id == ex.id then { ci with quantity := q, unit_price := P.price }
              else ci) := by
          have h := List.mem_map_of_mem (fun ci =>
              if ci.id == ex.id then { ci with quantity := q, unit_price := P.price }
              else ci) hexm
          simpa using h
        have hnd2 : ((dbA.cart_items.map (fun ci =>
            if ci.id == ex.id then { ci with quantity := q, unit_price := P.price }
            else ci)).map (fun ci => (ci.cart_id, ci.product_id))).Nodup := by
          rw [map_upd_keys dbA.cart_items ex.id q P.price
              (fun ci => (ci.cart_id, ci.product_id)) (fun ci => rfl)]
          exact hpairsA
        exact filter_key_unique (fun ci : CartItem => (ci.cart_id, ci.product_id))
          (dbA.cart_items.map (fun ci =>
            if ci.id == ex.id then { ci with quantity := q, unit_price := P.price }
            else ci))
          (cart.id, pid) { ex with quantity := q, unit_price := P.price }
          hnd2 hmem2 (by simp [hexp.1, hexp.2])

/-- Lookup-or-insert is idempotent: run on its own result state, it
finds the same cart and changes nothing. -/
theorem get_or_create_idem (db : DB) (u : Nat) :
    _get_or_create_active_cart (_get_or_create_active_cart db u).1 u =
      _get_or_create_active_cart db u := by
  have h := get_or_create_active db u
  have h2 := get_or_create_of_found _ u _ h
  rw [h2]

/-- `activeCartUnique` reads only the carts table. -/
theorem activeCartUnique_congr (db db' : DB) (h : db'.carts = db.carts)
    (hu : activeCartUnique db) : activeCartUnique db' := by
  intro c1 h1 c2 h2
  rw [h] at h1 h2
  exact hu c1 h1 c2 h2

/-- Lookup-or-insert preserves active-cart uniqueness: the row is only
inserted when the lookup shows no active cart for the user. -/
theorem get_or_create_unique (db : DB) (u : Nat) (hu : activeCartUnique db) :
    activeCartUnique (_get_or_create_active_cart db u).1 := by
  cases hc : activeCart db u with
  | some c0 => rw [get_or_create_of_found db u c0 hc]; exact hu
  | none =>
      rw [get_or_create_of_missing db u hc]
      have hnone := List.find?_eq_none.mp hc
      intro c1 h1 c2 h2 huser hs1 hs2
      have h1' : c1 ∈ db.carts ++ [newCartFor db u] := h1
      have h2' : c2 ∈ db.carts ++ [newCartFor db u] := h2
      rcases List.mem_append.mp h1' with m1 | m1 <;>
        rcases List.mem_append.mp h2' with m2 | m2
      · exact hu c1 m1 c2 m2 huser hs1 hs2
      · simp only [List.mem_singleton] at m2
        subst m2
        exfalso
        apply hnone c1 m1
        simp only [newCartFor] at huser
        simp [huser, hs1]
      · simp only [List.mem_singleton] at m1
        subst m1
        exfalso
        apply hnone c2 m2
        simp only [newCartFor] at huser
        simp [← huser, hs2]
      · simp only [List.mem_singleton] at m1 m2
        rw [m1, m2]

/-- `get_cart` returns the session state of the lookup-or-insert. -/
theorem get_cart_fst (db : DB) (u : Nat) :
    (get_cart db u).1 = (_get_or_create_active_cart db u).1 := by
  simp only [get_cart]
  split <;> rfl

/-- The carts table after an upsert request: unchanged, or extended by
the lookup-or-insert. -/
theorem upsert_carts (db : DB) (u pid : Nat) (q : ℤ) :
    (cart_upsert_item db u pid q).1.carts = db.carts ∨
    (cart_upsert_item db u pid q).1.carts = (_get_or_create_active_cart db u).1.carts := by
  unfold cart_upsert_item
  by_cases hq : q ≤ 0
  · left; simp [hq]
  · rw [if_neg hq]
    rcases hsplit : _get_or_create_active_cart db u with ⟨dbA, cart⟩
    unfold upsert_cart_item
    cases hgp : get_product db pid with
    | error e => left; simp [hgp]
    | ok P =>
        right
        simp only [hgp, hsplit]
        cases hfind : dbA.cart_items.find?
            (fun ci => ci.cart_id == cart.id && ci.product_id == pid) with
        | none => simp [hfind]
        | some ex => simp [hfind]

theorem remove_carts (db : DB) (u iid : Nat) :
    (remove_cart_item db u iid).1.carts = db.carts ∨
    (remove_cart_item db u iid).1.carts = (_get_or_create_active_cart db u).1.carts := by
  unfold remove_cart_item
  rcases hsplit : _get_or_create_active_cart db u with ⟨dbA, cart⟩
  simp only [hsplit]
  cases hfind : dbA.cart_items.find? (fun ci => ci.id == iid && ci.cart_id == cart.id) with
  | none => left; simp [hfind]
  | some item => right; simp [hfind]

theorem clear_carts (db : DB) (u : Nat) :
    (clear_cart db u).1.carts = (_get_or_create_active_cart db u).1.carts := by
  unfold clear_cart
  rcases hsplit : _get_or_create_active_cart db u with ⟨dbA, cart⟩
  simp only [hsplit]

theorem checkout_carts (db : DB) (u : Nat) (ck : Bool) :
    (checkout db u ck).1.carts = db.carts ∨
    (checkout db u ck).1.carts = (_get_or_create_active_cart db u).1.carts := by
  rcases hs : get_cart db u with ⟨dbB, cart⟩
  have hB : dbB.carts = (_get_or_create_active_cart db u).1.carts := by
    have h := get_cart_fst db u
    rw [hs] at h
    have h' : dbB = (_get_or_create_active_cart db u).1 := h
    rw [h']
  simp only [checkout, hs]
  split
  · left; rfl
  · cases hres : resolveItems dbB (itemsOfCart dbB cart.id) with
    | none => left; rfl
    | some loaded =>
        simp only [hres, checkout_loop_spec]
        cases ck with
        | false => left; rfl
        | true =>
            simp only [if_true]
            split
            · right; exact hB
            · right; exact hB

/-- Every core request preserves the active-cart uniqueness invariant. -/
theorem applyOp_unique (db : DB) (op : Op) (h : activeCartUnique db) :
    activeCartUnique (applyOp db op) := by
  have hpres : ∀ u : Nat, activeCartUnique (_get_or_create_active_cart db u).1 :=
    fun u => get_or_create_unique db u h
  cases op with
  | opGetCart u => exact h
  | opGetOrder u oid =>
      have : (get_order db u oid).1 = db := by
        unfold get_order
        split <;> rfl
      simp only [applyOp, this]
      exact h
  | opUpsert u pid q =>
      rcases upsert_carts db u pid q with hc | hc
      · exact activeCartUnique_congr db _ hc h
      · exact activeCartUnique_congr _ _ hc (hpres u)
  | opRemove u iid =>
      rcases remove_carts db u iid with hc | hc
      · exact activeCartUnique_congr db _ hc h
      · exact activeCartUnique_congr _ _ hc (hpres u)
  | opClear u =>
      exact activeCartUnique_congr _ _ (clear_carts db u) (hpres u)
  | opCheckout u ck =>
      rcases checkout_carts db u ck with hc | hc
      · exact activeCartUnique_congr db _ hc h
      · exact activeCartUnique_congr _ _ hc (hpres u)

/-- `checkout` for a user with no active cart: the lazily created cart
has no items, so the request fails with `EmptyCart` and rolls back. -/
theorem checkout_empty_of_none (db : DB) (u : Nat) (ck : Bool)
    (hfresh : ∀ c ∈ db.carts, c.id < db.next_cart_id)
    (hfk : ∀ ci ∈ db.cart_items, ∃ c ∈ db.carts, c.id = ci.cart_id)
    (hc : activeCart db u = none) :
    checkout db u ck = (db, .error .EmptyCart) := by
  have hgc := get_cart_of_missing db u hfresh hc
  have hempty' : db.cart_items.filter (fun ci => ci.cart_id == db.next_cart_id) = [] := by
    have h := itemsOfCart_new_empty db hfk hfresh
    simpa [itemsOfCart] using h
  simp [checkout, hgc, itemsOfCart, newCartFor, hempty']

/-- `checkout` when the user's active cart is empty fails with
`EmptyCart` and rolls back. -/
theorem checkout_empty_of_found (db : DB) (u : Nat) (ck : Bool) (c0 : Cart)
    (hnd : (db.carts.map Cart.id).Nodup)
    (hc : activeCart db u = some c0)
    (hempty : itemsOfCart db c0.id = []) :
    checkout db u ck = (db, .error .EmptyCart) := by
  have hgc := get_cart_of_found db u c0 hnd hc
  have hempty' : db.cart_items.filter (fun ci => ci.cart_id == c0.id) = [] := by
    simpa [itemsOfCart] using hempty
  simp [checkout, hgc, itemsOfCart, hempty']

/-- Every run of `checkout` either leaves the store untouched or
succeeds: the post-commit re-select cannot miss the committed order. -/
theorem checkout_cases (db : DB) (u : Nat) (ck : Bool) :
    (checkout db u ck).1 = db ∨ (∃ o, (checkout db u ck).2 = .ok o) := by
  rcases hs : get_cart db u with ⟨dbB, cart⟩
  simp only [checkout, hs]
  split
  · left; rfl
  · split
    · left; rfl
    · rename_i loaded hres
      simp only [checkout_loop_spec]
      cases ck with
      | false => left; rfl
      | true =>
          simp only [if_true]
          split
          · rename_i o hfound
            right; exact ⟨o, rfl⟩
          · rename_i hfound
            exfalso
            have hin :
                ({ id := dbB.next_order_id,
                   user_id := u,
                   status := "pending",
                   total_amount := money 0,
                   currency := (loaded.head?.map (fun x => x.2.currency)).getD "USD" } : Order) ∈
                  dbB.orders ++
                    [({ id := dbB.next_order_id,
                        user_id := u,
                        status := "pending",
                        total_amount := money 0,
                        currency := (loaded.head?.map (fun x => x.2.currency)).getD "USD" } : Order)] := by
              simp
            have hmem := List.mem_map_of_mem (fun o : Order =>
                if o.id == dbB.next_order_id then
                  { o with total_amount := money (0 + sumTotals loaded) }
                else o) hin
            have := List.find?_eq_none.mp hfound _ hmem
            simp at this

/-- All error exits of `checkout` leave the persisted store untouched. -/
theorem checkout_error_rollback (db : DB) (u : Nat) (ck : Bool) (e : ApiError)
    (h : (checkout db u ck).2 = .error e) : (checkout db u ck).1 = db := by
  rcases checkout_cases db u ck with hc | ⟨o, hc⟩
  · exact hc
  · rw [h] at hc
    cases hc

/-- Inversion on a successful `checkout` over a well-formed store: the
user had a nonempty active cart, every item resolved, the commit flag
was set, and the result is exactly the characterized state and order. -/
theorem checkout_success_inv (db db' : DB) (u : Nat) (o : Order) (ck : Bool)
    (hwf : StoreWf db) (h : checkout db u ck = (db', .ok o)) :
    ∃ c0 loaded,
      activeCart db u = some c0 ∧
      itemsOfCart db c0.id ≠ [] ∧
      resolveItems db (itemsOfCart db c0.id) = some loaded ∧
      loaded.map Prod.fst = itemsOfCart db c0.id ∧
      (∀ pr ∈ loaded, productOf db pr.1.product_id = some pr.2) ∧
      ck = true ∧
      db' = checkoutState db u c0.id loaded ∧
      o = checkoutOrder db u loaded := by
  obtain ⟨⟨hnd, hfresh, hind, hifresh, hpairs⟩, hond, hofresh, hoifresh, hfkc, hfkp⟩ := hwf
  cases hc : activeCart db u with
  | none =>
      rw [checkout_empty_of_none db u ck hfresh hfkc hc] at h
      simp at h
  | some c0 =>
      by_cases hne : itemsOfCart db c0.id = []
      · rw [checkout_empty_of_found db u ck c0 hnd hc hne] at h
        simp at h
      · obtain ⟨loaded, hres, hmap, hprods⟩ :=
          resolveItems_of_fk db (itemsOfCart db c0.id) (by
            intro ci hci
            have hci' : ci ∈ db.cart_items := List.mem_of_mem_filter hci
            obtain ⟨p, hpm, hpid⟩ := hfkp ci hci'
            have : (db.products.find? (fun x => x.id == ci.product_id)).isSome := by
              rw [List.find?_isSome]
              exact ⟨p, hpm, by simp [hpid]⟩
            obtain ⟨p', hp'⟩ := Option.isSome_iff_exists.mp this
            exact ⟨p', hp'⟩)
        rw [checkout_ok_spec db u c0 loaded ck hnd hc hne hres hofresh] at h
        cases ck with
        | false => simp at h
        | true =>
            simp only [if_true, Prod.mk.injEq, Except.ok.injEq] at h
            exact ⟨c0, loaded, rfl, hne, hres, hmap, hprods, rfl, h.1.symm, h.2.symm⟩

/-- The items of the checked-out order in the committed state are
exactly the generated rows. -/
theorem checkoutState_itemsOfOrder (db : DB) (u cid : Nat)
    (loaded : List (CartItem × Product))
    (hoifresh : ∀ oi ∈ db.order_items, oi.order_id < db.next_order_id) :
    itemsOfOrder (checkoutState db u cid loaded) (checkoutOrder db u loaded).id =
      gen_order_items db.next_order_id db.next_order_item_id loaded := by
  show (db.order_items ++ gen_order_items db.next_order_id db.next_order_item_id loaded).filter
      (fun oi => oi.order_id == db.next_order_id) =
    gen_order_items db.next_order_id db.next_order_item_id loaded
  rw [List.filter_append]
  have hold : db.order_items.filter (fun oi => oi.order_id == db.next_order_id) = [] := by
    rw [List.filter_eq_nil_iff]
    intro oi hoi hbeq
    have := hoifresh oi hoi
    simp only [beq_iff_eq] at hbeq
    omega
  have hgen : (gen_order_items db.next_order_id db.next_order_item_id loaded).filter
      (fun oi => oi.order_id == db.next_order_id) =
      gen_order_items db.next_order_id db.next_order_item_id loaded := by
    rw [List.filter_eq_self]
    intro oi hoi
    have := (gen_order_items_mem db.next_order_id db.next_order_item_id loaded oi hoi).1
    simp [this]
  rw [hold, hgen, List.nil_append]

/-- The committed state has no items left in the source cart. -/
theorem checkoutState_itemsOfCart (db : DB) (u cid : Nat)
    (loaded : List (CartItem × Product)) :
    itemsOfCart (checkoutState db u cid loaded) cid = [] := by
  show (db.cart_items.filter (fun ci => ci.cart_id != cid)).filter
      (fun ci => ci.cart_id == cid) = []
  rw [List.filter_filter, List.filter_eq_nil_iff]
  intro a ha hp
  simp only [Bool.and_eq_true, beq_iff_eq, bne_iff_ne, ne_eq] at hp
  exact hp.2 hp.1

theorem checkoutState_carts (db : DB) (u cid : Nat) (loaded : List (CartItem × Product)) :
    (checkoutState db u cid loaded).carts = db.carts := rfl

theorem checkoutState_orders (db : DB) (u cid : Nat) (loaded : List (CartItem × Product)) :
    (checkoutState db u cid loaded).orders = db.orders ++ [checkoutOrder db u loaded] := rfl

/-- A store where user 7's active cart holds product 1 with snapshotted
unit price 9.99, while the product row's live price has since been
raised to 19.99. -/
def dbLive : DB :=
  { products := [{ id := 1, price := 1999/100, currency := "USD", is_active := true }],
    carts := [{ id := 10, user_id := 7, status := "active" }],
    cart_items := [{ id := 20, cart_id := 10, product_id := 1, quantity := 1, unit_price := 999/100 }],
    orders := [], order_items := [],
    next_cart_id := 11, next_cart_item_id := 21, next_order_id := 30, next_order_item_id := 40 }

/-- The spec's worked checkout example: a cart with (qty 2, price 9.99)
and (qty 1, price 5.00), snapshots in sync with the product rows. -/
def dbC4 : DB :=
  { products := [{ id := 1, price := 999/100, currency := "USD", is_active := true },
                 { id := 2, price := 5, currency := "USD", is_active := true }],
    carts := [{ id := 10, user_id := 7, status := "active" }],
    cart_items := [{ id := 20, cart_id := 10, product_id := 1, quantity := 2, unit_price := 999/100 },
                   { id := 21, cart_id := 10, product_id := 2, quantity := 1, unit_price := 5 }],
    orders := [], order_items := [],
    next_cart_id := 11, next_cart_item_id := 22, next_order_id := 30, next_order_item_id := 40 }

/-- A store where user 7 has an active cart with no items. -/
def dbEmptyCart : DB :=
  { products := [{ id := 1, price := 5, currency := "USD", is_active := true }],
    carts := [{ id := 10, user_id := 7, status := "active" }],
    cart_items := [], orders := [], order_items := [],
    next_cart_id := 11, next_cart_item_id := 1, next_order_id := 1, next_order_item_id := 1 }

/-- A store holding one order that belongs to user 1. -/
def dbOrders : DB :=
  { products := [], carts := [], cart_items := [],
    orders := [{ id := 50, user_id := 1, status := "pending", total_amount := 5, currency := "USD" }],
    order_items := [],
    next_cart_id := 1, next_cart_item_id := 1, next_order_id := 51, next_order_item_id := 1 }

/-- Claim C1: the specification says every OrderItem's unit_price is
copied verbatim from the CartItem's snapshot.  The code computes
`unit_price = ci.product.price` (services.py line 140), the live product
row.  On `dbLive` — snapshot 9.99, live price 19.99 — the persisted
OrderItem carries 19.99, not the snapshot, refuting the claim on the
code and confirming the divergence from the documented intent. -/
theorem C1_checkout_prices_from_live_product_row :
    (checkout dbLive 7 true).1.order_items.map OrderItem.unit_price = [1999/100] ∧
    dbLive.cart_items.map CartItem.unit_price = [999/100] ∧
    (1999/100 : ℚ) ≠ 999/100 :=
  ⟨by rfl, by rfl, by norm_num⟩

/-- Claim C3: upserting with a non-positive quantity is rejected by the
request schema (`conint(gt=0)`) as `InvalidQuantity` before the service
runs, and the persisted store — hence the cart, its items, quantities
and unit prices — is exactly unchanged. -/
theorem C3_upsert_rejects_nonpositive_quantity (db : DB) (u pid : Nat) (q : ℤ)
    (hq : q ≤ 0) :
    cart_upsert_item db u pid q = (db, Except.error ApiError.InvalidQuantity) := by
  simp [cart_upsert_item, hq]

theorem C3_witness :
    (0 : ℤ) ≤ 0 ∧ (-3 : ℤ) ≤ 0 ∧
    cart_upsert_item dbLive 7 1 0 = (dbLive, Except.error ApiError.InvalidQuantity) ∧
    cart_upsert_item dbLive 7 1 (-3) = (dbLive, Except.error ApiError.InvalidQuantity) :=
  ⟨by norm_num, by norm_num,
   C3_upsert_rejects_nonpositive_quantity dbLive 7 1 0 (by norm_num),
   C3_upsert_rejects_nonpositive_quantity dbLive 7 1 (-3) (by norm_num)⟩

/-- Claim C7: checkout of an active cart with zero items fails with
`EmptyCart` and the persisted store is exactly the input store — no
Order and no OrderItems are created. -/
theorem C7_checkout_empty_cart_fails (db : DB) (u : Nat) (ck : Bool) (c0 : Cart)
    (hnd : (db.carts.map Cart.id).Nodup)
    (hc : activeCart db u = some c0)
    (hempty : itemsOfCart db c0.id = []) :
    checkout db u ck = (db, Except.error ApiError.EmptyCart) :=
  checkout_empty_of_found db u ck c0 hnd hc hempty

theorem C7_witness :
    (dbEmptyCart.carts.map Cart.id).Nodup ∧
    activeCart dbEmptyCart 7 = some { id := 10, user_id := 7, status := "active" } ∧
    itemsOfCart dbEmptyCart 10 = [] ∧
    checkout dbEmptyCart 7 true = (dbEmptyCart, Except.error ApiError.EmptyCart) :=
  ⟨by decide, by rfl, by rfl,
   C7_checkout_empty_cart_fails dbEmptyCart 7 true
     { id := 10, user_id := 7, status := "active" } (by decide) (by rfl) (by rfl)⟩

/-- Claim C9: `get_order` filters on owner and id together; whenever no
order with the given id belongs to the user — including when the order
exists but belongs to someone else — the outcome is the same
`NotFound "Order not found"` with an untouched store, indistinguishable
from the outcome for an id that matches no order at all. -/
theorem C9_get_order_ownership (db : DB) (u oid1 oid2 : Nat)
    (h1 : ∀ o ∈ db.orders, o.user_id = u → o.id ≠ oid1)
    (h2 : ∀ o ∈ db.orders, o.id ≠ oid2) :
    get_order db u oid1 = (db, Except.error (ApiError.NotFound "Order not found")) ∧
    get_order db u oid1 = get_order db u oid2 := by
  have f1 : db.orders.find? (fun o => o.user_id == u && o.id == oid1) = none := by
    rw [List.find?_eq_none]
    intro o ho
    simp only [Bool.and_eq_true, beq_iff_eq, not_and]
    exact h1 o ho
  have f2 : db.orders.find? (fun o => o.user_id == u && o.id == oid2) = none := by
    rw [List.find?_eq_none]
    intro o ho
    simp only [Bool.and_eq_true, beq_iff_eq, not_and]
    intro hu
    exact h2 o ho
  constructor
  · simp [get_order, f1]
  · simp [get_order, f1, f2]

theorem C9_witness :
    (∃ o ∈ dbOrders.orders, o.id = 50 ∧ o.user_id ≠ 2) ∧
    (∀ o ∈ dbOrders.orders, o.id ≠ 999) ∧
    get_order dbOrders 2 50 = (dbOrders, Except.error (ApiError.NotFound "Order not found")) ∧
    get_order dbOrders 2 50 = get_order dbOrders 2 999 := by
  have h := C9_get_order_ownership dbOrders 2 50 999 (by decide) (by decide)
  exact ⟨by decide, by decide, h.1, h.2⟩

/-- Claim C2: checkout is all-or-nothing.  Any failing run — EmptyCart,
a storage conflict at commit, or any other error — leaves the persisted
store exactly as it was (no Order, no OrderItems, cart intact); any
successful run over a well-formed store persists the order together with
its (nonempty) items and empties the user's active cart, so no partial
state is reachable. -/
theorem C2_checkout_all_or_nothing (db : DB) (u : Nat) (ck : Bool) :
    (∀ e, (checkout db u ck).2 = Except.error e → (checkout db u ck).1 = db) ∧
    (StoreWf db → ∀ db' o, checkout db u ck = (db', Except.ok o) →
      o ∈ db'.orders ∧
      itemsOfOrder db' o.id ≠ [] ∧
      (∀ c, activeCart db' u = some c → itemsOfCart db' c.id = [])) := by
  constructor
  · intro e h
    exact checkout_error_rollback db u ck e h
  · intro hwf db' o h
    obtain ⟨c0, loaded, hc, hne, hres, hmap, hprods, hck, hdb', ho⟩ :=
      checkout_success_inv db db' u o ck hwf h
    subst hdb'
    subst ho
    refine ⟨?_, ?_, ?_⟩
    · rw [checkoutState_orders]
      simp
    · rw [checkoutState_itemsOfOrder db u c0.id loaded hwf.2.2.2.1]
      intro hnil
      have hlen := gen_order_items_length db.next_order_id db.next_order_item_id loaded
      rw [hnil] at hlen
      apply hne
      have hlen2 : (itemsOfCart db c0.id).length = 0 := by
        rw [← hmap, List.length_map, ← hlen]
        rfl
      exact List.eq_nil_of_length_eq_zero hlen2
    · intro c hac
      have hcarts := checkoutState_carts db u c0.id loaded
      rw [activeCart_congr db (checkoutState db u c0.id loaded) u hcarts] at hac
      rw [hc] at hac
      simp only [Option.some.injEq] at hac
      subst hac
      exact checkoutState_itemsOfCart db u c0.id loaded

theorem C2_witness :
    ((checkout dbC4 7 false).2 = Except.error ApiError.StorageConflict ∧
     (checkout dbC4 7 false).1 = dbC4) ∧
    (StoreWf dbC4 ∧
     ∃ db' o, checkout dbC4 7 true = (db', Except.ok o) ∧
       o ∈ db'.orders ∧ itemsOfOrder db' o.id ≠ [] ∧
       (∀ c, activeCart db' 7 = some c → itemsOfCart db' c.id = [])) := by
  have hfail : (checkout dbC4 7 false).2 = Except.error ApiError.StorageConflict := by rfl
  have hok : checkout dbC4 7 true =
      ((checkout dbC4 7 true).1, Except.ok
        { id := 30, user_id := 7, status := "pending",
          total_amount := money (0 + money ((2 : ℚ) * (999/100)) + money ((1 : ℚ) * 5)),
          currency := "USD" }) := by rfl
  refine ⟨⟨hfail, (C2_checkout_all_or_nothing dbC4 7 false).1 _ hfail⟩,
    ⟨by decide, (checkout dbC4 7 true).1, _, hok,
      (C2_checkout_all_or_nothing dbC4 7 true).2 (by decide) _ _ hok⟩⟩

/-- Claim C4: in any successful checkout over a well-formed store, every
persisted OrderItem satisfies line_total = round2(quantity × unit_price)
and the order's total_amount is the 2-decimal rounding of the plain sum
of the line totals; in particular the spec's worked example (qty 2 at
9.99 and qty 1 at 5.00) yields line totals 19.98 and 5.00 and a total of
24.98. -/
theorem C4_order_totals_round_trip (db db' : DB) (u : Nat) (o : Order) (ck : Bool)
    (hwf : StoreWf db) (h : checkout db u ck = (db', Except.ok o)) :
    ((∀ oi ∈ itemsOfOrder db' o.id,
        oi.line_total = money ((oi.quantity : ℚ) * oi.unit_price)) ∧
      o.total_amount = money (((itemsOfOrder db' o.id).map OrderItem.line_total).sum)) ∧
    ((checkout dbC4 7 true).1.order_items.map OrderItem.line_total = [999/50, 5] ∧
      (checkout dbC4 7 true).2 = Except.ok
        { id := 30, user_id := 7, status := "pending",
          total_amount := 1249/50, currency := "USD" }) := by
  obtain ⟨c0, loaded, hc, hne, hres, hmap, hprods, hck, hdb', ho⟩ :=
    checkout_success_inv db db' u o ck hwf h
  subst hdb'
  subst ho
  constructor
  · constructor
    · rw [checkoutState_itemsOfOrder db u c0.id loaded hwf.2.2.2.1]
      intro oi hoi
      exact (gen_order_items_mem db.next_order_id db.next_order_item_id loaded oi hoi).2.1
    · rw [checkoutState_itemsOfOrder db u c0.id loaded hwf.2.2.2.1]
      rw [gen_order_items_line_totals]
      rfl
  · constructor
    · have hraw : (checkout dbC4 7 true).1.order_items.map OrderItem.line_total =
          [money ((2 : ℚ) * (999/100)), money ((1 : ℚ) * 5)] := by rfl
      rw [hraw]
      norm_num [money, roundHalfEven]
    · have hraw : (checkout dbC4 7 true).2 = Except.ok
          { id := 30, user_id := 7, status := "pending",
            total_amount := money (0 + money ((2 : ℚ) * (999/100)) + money ((1 : ℚ) * 5)),
            currency := "USD" } := by rfl
      rw [hraw]
      norm_num [money, roundHalfEven]

theorem C4_witness :
    StoreWf dbC4 ∧
    ∃ db' o, checkout dbC4 7 true = (db', Except.ok o) ∧
      (∀ oi ∈ itemsOfOrder db' o.id,
        oi.line_total = money ((oi.quantity : ℚ) * oi.unit_price)) ∧
      o.total_amount = money (((itemsOfOrder db' o.id).map OrderItem.line_total).sum) := by
  have hok : checkout dbC4 7 true =
      ((checkout dbC4 7 true).1, Except.ok
        { id := 30, user_id := 7, status := "pending",
          total_amount := money (0 + money ((2 : ℚ) * (999/100)) + money ((1 : ℚ) * 5)),
          currency := "USD" }) := by rfl
  have h := C4_order_totals_round_trip dbC4 (checkout dbC4 7 true).1 7 _ true (by decide) hok
  exact ⟨by decide, (checkout dbC4 7 true).1, _, hok, h.1.1, h.1.2⟩

/-- Claim C8: a successful checkout deletes only the cart's items.  The
carts table is untouched, so `get_cart` afterwards returns the very same
cart row (same id, same user, still "active", no field changed) with
zero items; no new cart is created. -/
theorem C8_checkout_keeps_cart_row (db db' : DB) (u : Nat) (c0 : Cart) (o : Order)
    (ck : Bool)
    (hwf : StoreWf db)
    (hc : activeCart db u = some c0)
    (h : checkout db u ck = (db', Except.ok o)) :
    get_cart db' u = (db', c0) ∧
    itemsOfCart db' c0.id = [] ∧
    c0.status = "active" ∧
    db'.carts = db.carts := by
  obtain ⟨c0', loaded, hc', hne, hres, hmap, hprods, hck, hdb', ho⟩ :=
    checkout_success_inv db db' u o ck hwf h
  rw [hc] at hc'
  simp only [Option.some.injEq] at hc'
  subst hc'
  subst hdb'
  refine ⟨?_, checkoutState_itemsOfCart db u c0.id loaded,
    (activeCart_mem db u c0 hc).2.2, checkoutState_carts db u c0.id loaded⟩
  apply get_cart_of_found
  · exact hwf.1.1
  · exact hc

theorem C8_witness :
    StoreWf dbC4 ∧
    activeCart dbC4 7 = some { id := 10, user_id := 7, status := "active" } ∧
    ∃ db' o, checkout dbC4 7 true = (db', Except.ok o) ∧
      get_cart db' 7 = (db', { id := 10, user_id := 7, status := "active" }) ∧
      itemsOfCart db' 10 = [] ∧
      db'.carts = dbC4.carts := by
  have hok : checkout dbC4 7 true =
      ((checkout dbC4 7 true).1, Except.ok
        { id := 30, user_id := 7, status := "pending",
          total_amount := money (0 + money ((2 : ℚ) * (999/100)) + money ((1 : ℚ) * 5)),
          currency := "USD" }) := by rfl
  have h := C8_checkout_keeps_cart_row dbC4 (checkout dbC4 7 true).1 7
    { id := 10, user_id := 7, status := "active" } _ true (by decide) (by rfl) hok
  exact ⟨by decide, by rfl, (checkout dbC4 7 true).1, _, hok, h.1, h.2.1, h.2.2.2⟩

/-- Claim C10: checkout never re-validates product active status and
never raises `NotFound`.  Over a well-formed store with a nonempty
active cart, the outcome is success (or a rollback on commit conflict),
and every cart item — also one whose product row has `is_active = false`
— is converted into an OrderItem priced from that product row, none
rejected or skipped. -/
theorem C10_checkout_skips_product_revalidation
    (db : DB) (u : Nat) (c0 : Cart) (ck : Bool)
    (hwf : StoreWf db)
    (hc : activeCart db u = some c0)
    (hne : itemsOfCart db c0.id ≠ []) :
    (∀ s, (checkout db u ck).2 ≠ Except.error (ApiError.NotFound s)) ∧
    (ck = true → ∃ db' o loaded,
      checkout db u ck = (db', Except.ok o) ∧
      resolveItems db (itemsOfCart db c0.id) = some loaded ∧
      loaded.map Prod.fst = itemsOfCart db c0.id ∧
      (itemsOfOrder db' o.id).map (fun oi => (oi.product_id, oi.quantity, oi.unit_price)) =
        loaded.map (fun pr => (pr.1.product_id, pr.1.quantity, pr.2.price)) ∧
      (∀ pr ∈ loaded, productOf db pr.1.product_id = some pr.2)) := by
  obtain ⟨⟨hnd, hfresh, hind, hifresh, hpairs⟩, hond, hofresh, hoifresh, hfkc, hfkp⟩ := hwf
  obtain ⟨loaded, hres, hmap, hprods⟩ :=
    resolveItems_of_fk db (itemsOfCart db c0.id) (by
      intro ci hci
      have hci' : ci ∈ db.cart_items := List.mem_of_mem_filter hci
      obtain ⟨p, hpm, hpid⟩ := hfkp ci hci'
      have hsome : (db.products.find? (fun x => x.id == ci.product_id)).isSome := by
        rw [List.find?_isSome]
        exact ⟨p, hpm, by simp [hpid]⟩
      obtain ⟨p', hp'⟩ := Option.isSome_iff_exists.mp hsome
      exact ⟨p', hp'⟩)
  have hrun := checkout_ok_spec db u c0 loaded ck hnd hc hne hres hofresh
  constructor
  · intro s
    rw [hrun]
    cases ck with
    | false => simp
    | true => simp
  · intro hck
    subst hck
    rw [hrun]
    simp only [if_true]
    refine ⟨checkoutState db u c0.id loaded, checkoutOrder db u loaded, loaded,
      rfl, hres, hmap, ?_, hprods⟩
    rw [checkoutState_itemsOfOrder db u c0.id loaded hoifresh]
    exact gen_order_items_fields db.next_order_id db.next_order_item_id loaded

/-- A store whose cart references a product that has been deactivated
after the item was added. -/
def dbInactive : DB :=
  { products := [{ id := 1, price := 5, currency := "USD", is_active := false }],
    carts := [{ id := 10, user_id := 7, status := "active" }],
    cart_items := [{ id := 20, cart_id := 10, product_id := 1, quantity := 2, unit_price := 5 }],
    orders := [], order_items := [],
    next_cart_id := 11, next_cart_item_id := 21, next_order_id := 30, next_order_item_id := 40 }

theorem C10_witness :
    StoreWf dbInactive ∧
    activeCart dbInactive 7 = some { id := 10, user_id := 7, status := "active" } ∧
    itemsOfCart dbInactive 10 ≠ [] ∧
    (∀ p ∈ dbInactive.products, p.is_active = false) ∧
    (∀ s, (checkout dbInactive 7 true).2 ≠ Except.error (ApiError.NotFound s)) ∧
    (∃ db' o loaded,
      checkout dbInactive 7 true = (db', Except.ok o) ∧
      resolveItems dbInactive (itemsOfCart dbInactive 10) = some loaded ∧
      loaded.map Prod.fst = itemsOfCart dbInactive 10 ∧
      (itemsOfOrder db' o.id).map (fun oi => (oi.product_id, oi.quantity, oi.unit_price)) =
        loaded.map (fun pr => (pr.1.product_id, pr.1.quantity, pr.2.price)) ∧
      (∀ pr ∈ loaded, productOf dbInactive pr.1.product_id = some pr.2)) := by
  have h := C10_checkout_skips_product_revalidation dbInactive 7
    { id := 10, user_id := 7, status := "active" } true (by decide) (by rfl) (by decide)
  exact ⟨by decide, by rfl, by decide, by decide, h.1, h.2 rfl⟩

/-- Claim C6: from any store satisfying the active-cart uniqueness
invariant, every state reachable through the core's requests still
satisfies it, and `_get_or_create_active_cart` is an idempotent
lookup-or-insert: run on its own result it changes nothing and returns
the same cart. -/
theorem C6_active_cart_unique_and_idempotent (db0 db : DB) (u : Nat)
    (h0 : activeCartUnique db0) (hr : Reachable db0 db) :
    activeCartUnique db ∧
    _get_or_create_active_cart (_get_or_create_active_cart db u).1 u =
      _get_or_create_active_cart db u := by
  constructor
  · induction hr with
    | refl => exact h0
    | step db2 op hr ih => exact applyOp_unique db2 op ih
  · exact get_or_create_idem db u

theorem C6_witness :
    activeCartUnique dbC4 ∧
    (activeCartUnique (applyOp dbC4 (Op.opCheckout 7 true)) ∧
     _get_or_create_active_cart
         (_get_or_create_active_cart (applyOp dbC4 (Op.opCheckout 7 true)) 9).1 9 =
       _get_or_create_active_cart (applyOp dbC4 (Op.opCheckout 7 true)) 9) :=
  ⟨by decide,
   C6_active_cart_unique_and_idempotent dbC4 (applyOp dbC4 (Op.opCheckout 7 true)) 9
     (by decide) (Reachable.step dbC4 dbC4 (Op.opCheckout 7 true) (Reachable.refl dbC4))⟩

/-- `get_product` reads only the products table. -/
theorem get_product_congr (db' db : DB) (pid : Nat) (h : db'.products = db.products) :
    get_product db' pid = get_product db pid := by
  simp [get_product, productOf, h]

theorem find?_price_map (l : List Product) (pid : Nat) (p : ℚ) :
    (l.map (fun pr => if pr.id == pid then { pr with price := p } else pr)).find?
        (fun x => x.id == pid) =
      (l.find? (fun x => x.id == pid)).map (fun pr => { pr with price := p }) := by
  induction l with
  | nil => rfl
  | cons a tl ih =>
      by_cases h : (a.id == pid) = true
      · simp only [List.map_cons, h, if_true]
        rw [List.find?_cons_of_pos (p := fun x : Product => x.id == pid) _
            (show (({ a with price := p } : Product).id == pid) = true from h)]
        rw [List.find?_cons_of_pos (p := fun x : Product => x.id == pid) _ h]
        rfl
      · simp only [List.map_cons, h, Bool.false_eq_true, if_false]
        rw [List.find?_cons_of_neg (p := fun x : Product => x.id == pid) _ h]
        rw [List.find?_cons_of_neg (p := fun x : Product => x.id == pid) _ h]
        exact ih

/-- Changing a product's price (catalog management) re-prices what
`get_product` returns but keeps existence and active status. -/
theorem get_product_set_price (db : DB) (pid : Nat) (p : ℚ) (P : Product)
    (h : get_product db pid = Except.ok P) :
    get_product (set_product_price db pid p) pid = Except.ok { P with price := p } := by
  have hprod : productOf (set_product_price db pid p) pid =
      (productOf db pid).map (fun pr => { pr with price := p }) := by
    show (db.products.map (fun pr => if pr.id == pid then { pr with price := p } else pr)).find?
        (fun x => x.id == pid) =
      (db.products.find? (fun x => x.id == pid)).map (fun pr => { pr with price := p })
    exact find?_price_map db.products pid p
  simp only [get_product] at h ⊢
  rw [hprod]
  cases hf : productOf db pid with
  | none =>
      rw [hf] at h
      cases h
  | some P0 =>
      rw [hf] at h
      by_cases ha : P0.is_active
      · simp only [ha, if_true, Except.ok.injEq] at h
        subst h
        simp [ha]
      · simp [ha] at h

/-- Claim C5: upserting the same product twice (quantities q1 then q2,
both positive), with the catalog price possibly changed to p2 between
the calls, leaves exactly one CartItem for the (cart, product) pair in
the user's cart, holding quantity q2 — not q1 + q2 — and unit_price p2,
the product's price at the time of the second call. -/
theorem C5_upsert_twice_last_write_wins
    (db db1 db2 : DB) (u pid : Nat) (q1 q2 : ℤ) (p2 : ℚ) (c1 c2 : Cart)
    (hwf : CartWf db)
    (hq1 : 0 < q1) (hq2 : 0 < q2)
    (h1 : cart_upsert_item db u pid q1 = (db1, Except.ok c1))
    (h2 : cart_upsert_item (set_product_price db1 pid p2) u pid q2 = (db2, Except.ok c2)) :
    ∃ item : CartItem,
      (itemsOfCart db2 c2.id).filter (fun ci => ci.product_id == pid) = [item] ∧
      item.quantity = q2 ∧ item.unit_price = p2 := by
  have hq1' : ¬ q1 ≤ 0 := by omega
  have hq2' : ¬ q2 ≤ 0 := by omega
  rw [cart_upsert_item, if_neg hq1'] at h1
  rw [cart_upsert_item, if_neg hq2'] at h2
  cases hgp : get_product db pid with
  | error e =>
      unfold upsert_cart_item at h1
      rw [hgp] at h1
      simp at h1
  | ok P =>
      obtain ⟨db1', c1', item1, hrun1, hwf1, hprods1, hac1, hfilter1, hiq1, hip1⟩ :=
        upsert_ok_spec db u pid q1 P hwf hgp
      rw [hrun1] at h1
      simp only [Prod.mk.injEq, Except.ok.injEq] at h1
      obtain ⟨hdb1, hc1⟩ := h1
      subst hdb1
      subst hc1
      have hgp1 : get_product db1' pid = Except.ok P := by
        rw [get_product_congr db1' db pid hprods1]
        exact hgp
      have hgp2 : get_product (set_product_price db1' pid p2) pid =
          Except.ok { P with price := p2 } := get_product_set_price db1' pid p2 P hgp1
      have hwf1' : CartWf (set_product_price db1' pid p2) := hwf1
      obtain ⟨db2', c2', item2, hrun2, hwf2, hprods2, hac2, hfilter2, hiq2, hip2⟩ :=
        upsert_ok_spec (set_product_price db1' pid p2) u pid q2
          { P with price := p2 } hwf1' hgp2
      rw [hrun2] at h2
      simp only [Prod.mk.injEq, Except.ok.injEq] at h2
      obtain ⟨hdb2, hc2⟩ := h2
      subst hdb2
      subst hc2
      refine ⟨item2, ?_, hiq2, hip2⟩
      rw [itemsOfCart, List.filter_filter]
      rw [← hfilter2]
      apply List.filter_congr
      intro a ha
      exact Bool.and_comm _ _

/-- A catalog with one active product priced 5 and an otherwise empty
store. -/
def dbP : DB :=
  { products := [{ id := 1, price := 5, currency := "USD", is_active := true }],
    carts := [], cart_items := [], orders := [], order_items := [],
    next_cart_id := 1, next_cart_item_id := 1, next_order_id := 1, next_order_item_id := 1 }

theorem C5_witness :
    CartWf dbP ∧ (0 : ℤ) < 2 ∧ (0 : ℤ) < 3 ∧
    ∃ item : CartItem,
      (itemsOfCart
          (cart_upsert_item (set_product_price (cart_upsert_item dbP 7 1 2).1 1 7) 7 1 3).1
          1).filter (fun ci => ci.product_id == 1) = [item] ∧
      item.quantity = 3 ∧ item.unit_price = 7 := by
  have h1 : cart_upsert_item dbP 7 1 2 =
      ((cart_upsert_item dbP 7 1 2).1,
        Except.ok { id := 1, user_id := 7, status := "active" }) := by rfl
  have h2 : cart_upsert_item (set_product_price (cart_upsert_item dbP 7 1 2).1 1 7) 7 1 3 =
      ((cart_upsert_item (set_product_price (cart_upsert_item dbP 7 1 2).1 1 7) 7 1 3).1,
        Except.ok { id := 1, user_id := 7, status := "active" }) := by rfl
  exact ⟨by decide, by norm_num, by norm_num,
    C5_upsert_twice_last_write_wins dbP _ _ 7 1 2 3 7 _ _ (by decide)
      (by norm_num) (by norm_num) h1 h2⟩

end Shop
